import Mathlib

/-!
Verification of the libtelio meshnet device runtime against its specification.

The development shallowly embeds:
* the UAPI text codec of `crates/telio-wg/src/uapi.rs` (the line-oriented
  parser `response_from_read` / `parse_peer`, the peer/interface data model,
  `Peer::is_connected`, and the `set` command serialization);
* the device runtime operations of `src/device/mod.rs`
  (`set_config`, `set_private_key`, `connect_exit_node`,
  `RequestedState::collect_dns_records`, and the exit-node demotion logic).

Modelling conventions: machine integers are `Nat` with explicit bounds where
the source parses a sized integer; field values whose codecs live in external
crates (curve25519 keys, socket addresses, IP networks) are abstracted as
decimal-coded naturals; `Duration` is a `Nat` of nanoseconds; the wall clock
used by `calculate_time_since_last_handshake` is passed explicitly as `now`.
A UAPI frame is a list of lines, each line a `List Char` without the
terminating newline, exactly what the source's `read_line` + `pop` loop sees.
-/

deriving instance DecidableEq for Except

namespace Libtelio

/-- One decimal digit as a character, `digitChar d` for `d < 10`. -/
def digitChar : Nat → Char
  | 0 => '0'
  | 1 => '1'
  | 2 => '2'
  | 3 => '3'
  | 4 => '4'
  | 5 => '5'
  | 6 => '6'
  | 7 => '7'
  | 8 => '8'
  | 9 => '9'
  | _ => '*'

/-- Fuelled decimal rendering (the fuel only drives structural recursion;
any fuel above the value suffices). -/
def natToCharsAux : Nat → Nat → List Char
  | 0, _ => []
  | fuel + 1, n =>
    if n < 10 then [digitChar n]
    else natToCharsAux fuel (n / 10) ++ [digitChar (n % 10)]

/-- Decimal rendering of a natural number (most significant digit first),
mirroring Rust's `Display` for unsigned integers. -/
def natToChars (n : Nat) : List Char := natToCharsAux (n + 1) n

/-- A decimal digit back to its value; `none` on any other character. -/
def charDigit? (c : Char) : Option Nat :=
  if 48 ≤ c.toNat ∧ c.toNat ≤ 57 then some (c.toNat - 48) else none

/-- Accumulating decimal parser over characters. -/
def digitsAux : Nat → List Char → Option Nat
  | acc, [] => some acc
  | acc, c :: cs =>
    match charDigit? c with
    | some d => digitsAux (acc * 10 + d) cs
    | none => none

/-- Parse a non-empty all-digit string, the model of Rust's
`str::parse` for unsigned integers (bounds are checked by the callers). -/
def digitsToNat? (cs : List Char) : Option Nat :=
  if cs.isEmpty then none else digitsAux 0 cs

/-- `str::parse::<u64>`: decimal digits with the 64-bit bound. -/
def parseU64 (cs : List Char) : Option Nat :=
  (digitsToNat? cs).bind fun n => if n < 18446744073709551616 then some n else none

/-- `str::parse::<u32>`: decimal digits with the 32-bit bound. -/
def parseU32 (cs : List Char) : Option Nat :=
  (digitsToNat? cs).bind fun n => if n < 4294967296 then some n else none

/-- `str::parse::<u16>`: decimal digits with the 16-bit bound. -/
def parseU16 (cs : List Char) : Option Nat :=
  (digitsToNat? cs).bind fun n => if n < 65536 then some n else none

/-- `str::parse::<i32>`: an optional sign followed by decimal digits,
with the 32-bit signed bounds. -/
def parseI32 (cs : List Char) : Option Int :=
  if cs.head? = some '-' then
    (digitsToNat? cs.tail).bind fun n =>
      if n ≤ 2147483648 then some (-(n : Int)) else none
  else
    (digitsToNat? cs).bind fun n =>
      if n < 2147483648 then some (n : Int) else none

/-- `cmd.splitn(2, '=')` when it yields two parts: the text before the first
`=` and everything after it; `none` when the line contains no `=`
(the source's "not in A=B format" case). -/
def splitEqList : List Char → Option (List Char × List Char)
  | [] => none
  | c :: cs =>
    if c = '=' then some ([], cs)
    else (splitEqList cs).map fun p => (c :: p.1, p.2)

/-- Building a `key=value` line. -/
def kv (k : String) (v : List Char) : List Char :=
  k.toList ++ '=' :: v

namespace Uapi

/-- telio implementation of `wireguard::Peer` (`crates/telio-wg/src/uapi.rs`).
`endpoint` and `allowed_ips` entries are abstract field values (their codecs
live in external crates); durations are nanoseconds. -/
structure Peer where
  public_key : Nat := 0
  endpoint : Option Nat := none
  persistent_keepalive_interval : Option Nat := none
  allowed_ips : List Nat := []
  rx_bytes : Option Nat := none
  tx_bytes : Option Nat := none
  time_since_last_handshake : Option Nat := none
deriving DecidableEq

/-- `REJECT_AFTER_TIME`: 180 s in nanoseconds. -/
def rejectAfterTime : Nat := 180 * 1000000000

/-- `REKEY_TIMEOUT_JITTER`: 334 ms in nanoseconds. -/
def rekeyTimeoutJitter : Nat := 334 * 1000000

/-- `Peer::is_connected`: the peer is connected iff the time since the last
handshake exists and is strictly below `REJECT_AFTER_TIME + REKEY_TIMEOUT_JITTER`. -/
def Peer.is_connected (p : Peer) : Bool :=
  p.time_since_last_handshake.elim false fun d =>
    decide (d < rejectAfterTime + rekeyTimeoutJitter)

/-- The connection state of a node (`telio_model::mesh::NodeState`). -/
inductive NodeState
  | disconnected
  | connecting
  | connected
deriving DecidableEq

/-- `Peer::state`. -/
def Peer.state (p : Peer) : NodeState :=
  if p.is_connected then .connected else .connecting

/-- `Peer::calculate_time_since_last_handshake`: a zero handshake time means
"no handshake yet", otherwise the elapsed time `now - lht` (the `checked_sub`
yields `none` when the handshake timestamp lies in the future). -/
def calculate_time_since_last_handshake (now : Nat) (lht : Option Nat) : Option Nat :=
  match lht with
  | none => none
  | some t => if t = 0 then none else if t ≤ now then some (now - t) else none

/-- telio-wg representation of a WireGuard interface. The `BTreeMap` of peers
is modelled as an association list sorted strictly by key. -/
structure Interface where
  private_key : Option Nat := none
  listen_port : Option Nat := none
  fwmark : Nat := 0
  peers : List (Nat × Peer) := []
deriving DecidableEq

/-- `BTreeMap::insert`: insert keeping the sorted order; an existing entry
with the same key is replaced. -/
def btInsert (k : Nat) (p : Peer) : List (Nat × Peer) → List (Nat × Peer)
  | [] => [(k, p)]
  | (k2, p2) :: t =>
    if k < k2 then (k, p) :: (k2, p2) :: t
    else if k = k2 then (k, p) :: t
    else (k2, p2) :: btInsert k p t

/-- Response of a UAPI request. -/
structure Response where
  errno : Int := 0
  interface : Option Interface := none
deriving DecidableEq

/-- `uapi::Error`. -/
inductive UError
  | parsingError (field : String) (msg : String)
deriving DecidableEq

/-- The accumulator of `parse_peer`: the peer built so far and the
`last_handshake_time` being summed from the `_sec`/`_nsec` lines. -/
structure PAcc where
  peer : Peer := {}
  lht : Option Nat := none
deriving DecidableEq

/-- The interface-level state of `response_from_read`: the interface built so
far, whether any interface key was seen (`inited`) and the response errno. -/
structure TopSt where
  itf : Interface := {}
  inited : Bool := false
  errno : Int := 0
deriving DecidableEq

/-- Finishing a peer: `parse_peer` converts the accumulated handshake
timestamp into a time since the last handshake. -/
def finishPeer (now : Nat) (a : PAcc) : Peer :=
  { a.peer with
    time_since_last_handshake := calculate_time_since_last_handshake now a.lht }

/-- `interface.peers.insert(peer.public_key, peer)` after finishing a peer. -/
def insertPeer (now : Nat) (st : TopSt) (a : PAcc) : TopSt :=
  { st with
    itf := { st.itf with
      peers := btInsert (a.peer.public_key) (finishPeer now a) st.itf.peers } }

/-- The response assembled on termination: the interface is reported only
when some interface-level key was seen. -/
def mkResp (st : TopSt) : Response :=
  { errno := st.errno, interface := if st.inited then some st.itf else none }

/-- One interface-level line of `response_from_read` (the big `match key`):
recognized keys set `inited`; `public_key` opens a peer section; `errno` is
recorded and parsing continues; unknown keys are ignored. -/
def topStep (k v : List Char) (st : TopSt) : Except UError (TopSt × Option PAcc) :=
  if k = String.toList "private_key" then
    match digitsToNat? v with
    | some pk => .ok ({ st with
        inited := true
        itf := { st.itf with private_key := some pk } }, none)
    | none => .error (.parsingError "private_key" "")
  else if k = String.toList "listen_port" then
    match parseU16 v with
    | some port => .ok ({ st with
        inited := true
        itf := { st.itf with
          listen_port := if 0 < port then some port else st.itf.listen_port } }, none)
    | none => .error (.parsingError "listen_port" "")
  else if k = String.toList "fwmark" then
    match parseU32 v with
    | some m => .ok ({ st with
        inited := true
        itf := { st.itf with fwmark := m } }, none)
    | none => .error (.parsingError "fwmark" "")
  else if k = String.toList "public_key" then
    match digitsToNat? v with
    | some pk => .ok ({ st with inited := true },
        some { peer := { public_key := pk } })
    | none => .error (.parsingError "public_key" "")
  else if k = String.toList "errno" then
    match parseI32 v with
    | some e => .ok ({ st with errno := e }, none)
    | none => .error (.parsingError "errno" "")
  else .ok (st, none)

/-- One peer-level line of `parse_peer`: attribute keys extend the current
peer; a further `public_key` finishes the peer and opens the next one; an
`errno` finishes the peer, records the errno and drops back to the interface
level; unknown keys are ignored. -/
def peerStep (now : Nat) (k v : List Char) (st : TopSt) (a : PAcc) :
    Except UError (TopSt × Option PAcc) :=
  if k = String.toList "endpoint" then
    match digitsToNat? v with
    | some e => .ok (st, some { a with peer := { a.peer with endpoint := some e } })
    | none => .error (.parsingError "endpoint" "")
  else if k = String.toList "persistent_keepalive_interval" then
    match parseU32 v with
    | some x => .ok (st, some { a with
        peer := { a.peer with persistent_keepalive_interval := some x } })
    | none => .error (.parsingError "persistent_keepalive_interval" "")
  else if k = String.toList "allowed_ip" then
    match digitsToNat? v with
    | some ip => .ok (st, some { a with
        peer := { a.peer with allowed_ips := a.peer.allowed_ips ++ [ip] } })
    | none => .error (.parsingError "allowed_ip" "")
  else if k = String.toList "rx_bytes" then
    match parseU64 v with
    | some n => .ok (st, some { a with peer := { a.peer with rx_bytes := some n } })
    | none => .error (.parsingError "rx_bytes" "")
  else if k = String.toList "tx_bytes" then
    match parseU64 v with
    | some n => .ok (st, some { a with peer := { a.peer with tx_bytes := some n } })
    | none => .error (.parsingError "tx_bytes" "")
  else if k = String.toList "last_handshake_time_nsec" then
    match parseU64 v with
    | some n => .ok (st, some { a with lht := some (a.lht.getD 0 + n) })
    | none => .error (.parsingError "last_handshake_time_nsec" "")
  else if k = String.toList "last_handshake_time_sec" then
    match parseU64 v with
    | some s => .ok (st, some { a with lht := some (a.lht.getD 0 + s * 1000000000) })
    | none => .error (.parsingError "last_handshake_time_sec" "")
  else if k = String.toList "public_key" then
    match digitsToNat? v with
    | some pk => .ok (insertPeer now st a, some { peer := { public_key := pk } })
    | none => .error (.parsingError "public_key" "")
  else if k = String.toList "errno" then
    match parseI32 v with
    | some e => .ok ({ insertPeer now st a with errno := e }, none)
    | none => .error (.parsingError "errno" "")
  else .ok (st, some a)

/-- `response_from_read` / `parse_peer` over a list of lines. End of input or
an empty line at the interface level yields the response; an empty line inside
a peer section finishes that peer and resumes interface-level parsing with the
following lines (the source's outer loop keeps reading after `parse_peer`
consumed the blank line); a line without `=` fails. -/
def response_from_lines (now : Nat) :
    List (List Char) → TopSt → Option PAcc → Except UError Response
  | [], st, none => .ok (mkResp st)
  | [], st, some a => .ok (mkResp (insertPeer now st a))
  | l :: rest, st, cur =>
    if l = [] then
      match cur with
      | none => .ok (mkResp st)
      | some a => response_from_lines now rest (insertPeer now st a) none
    else
      match splitEqList l with
      | none => .error (.parsingError "cmd" "not in A=B format")
      | some (k, v) =>
        match (match cur with
               | none => topStep k v st
               | some a => peerStep now k v st a) with
        | .error e => .error e
        | .ok (st2, cur2) => response_from_lines now rest st2 cur2

/-- `response_from_str`, over pre-split lines. -/
def response_from_str (now : Nat) (lines : List (List Char)) : Except UError Response :=
  response_from_lines now lines {} none

/-- `wireguard_uapi::xplatform::set::Peer`, restricted to the fields the
telio conversion produces: the keepalive interval is a `u16`. -/
structure SetPeer where
  public_key : Nat := 0
  endpoint : Option Nat := none
  persistent_keepalive_interval : Option Nat := none
  allowed_ips : List Nat := []
deriving DecidableEq

/-- `wireguard_uapi::xplatform::set::Device`, restricted to the fields the
telio conversion produces. -/
structure SetDevice where
  private_key : Option Nat := none
  listen_port : Option Nat := none
  fwmark : Option Nat := none
  peers : List SetPeer := []
deriving DecidableEq

/-- `impl From<&Peer> for set::Peer`: get-only fields (`rx_bytes`,
`tx_bytes`, `time_since_last_handshake`) are dropped and the keepalive
interval is cast `as u16` (truncation modulo 2^16). -/
def setPeer_of_peer (p : Peer) : SetPeer :=
  { public_key := p.public_key
    endpoint := p.endpoint
    persistent_keepalive_interval := p.persistent_keepalive_interval.map (· % 65536)
    allowed_ips := p.allowed_ips }

/-- `impl From<Interface> for set::Device`: `fwmark` 0 becomes absent and the
peer map's values are converted in key order. -/
def setDevice_of_interface (itf : Interface) : SetDevice :=
  { private_key := itf.private_key
    listen_port := itf.listen_port
    fwmark := match itf.fwmark with
      | 0 => none
      | x => some x
    peers := itf.peers.map fun kp => setPeer_of_peer kp.2 }

/-- The attribute lines of one serialized `set` peer: each present attribute
as its own `key=value` line and one `allowed_ip` line per network. -/
def serPeerAttrs (p : SetPeer) : List (List Char) :=
  (p.endpoint.map fun e => kv "endpoint" (natToChars e)).toList
    ++ (p.persistent_keepalive_interval.map fun x =>
          kv "persistent_keepalive_interval" (natToChars x)).toList
    ++ p.allowed_ips.map fun ip => kv "allowed_ip" (natToChars ip)

/-- Modelled from the spec: the `Display` implementation of
`wireguard_uapi::xplatform::set::Peer` (an external crate, absent from the
sources) — "for each peer a `public_key=…` line followed by its attributes". -/
def serSetPeer (p : SetPeer) : List (List Char) :=
  kv "public_key" (natToChars p.public_key) :: serPeerAttrs p

/-- Modelled from the spec: the `Display` implementation of
`wireguard_uapi::xplatform::set::Device` (an external crate, absent from the
sources) — "emit `set=1`, then interface keys, then for each peer a
`public_key=…` line followed by its attributes"; absent optional fields are
skipped. -/
def serSetDevice (d : SetDevice) : List (List Char) :=
  (d.private_key.map fun x => kv "private_key" (natToChars x)).toList
    ++ (d.listen_port.map fun x => kv "listen_port" (natToChars x)).toList
    ++ (d.fwmark.map fun x => kv "fwmark" (natToChars x)).toList
    ++ d.peers.flatMap serSetPeer

/-- `impl Display for Cmd` on `Cmd::Set`: the `set=1` line, the device body,
and the blank line the final `writeln!` produces. -/
def serialize_set_cmd (itf : Interface) : List (List Char) :=
  String.toList "set=1" :: serSetDevice (setDevice_of_interface itf) ++ [[]]

/-- The round-trip normalization the spec allows: a serialized
`listen_port=0` parses back to "no listen port". -/
def zeroPortCanon (itf : Interface) : Interface :=
  { itf with listen_port := match itf.listen_port with
      | some 0 => none
      | x => x }

/-- Type-level invariants of the Rust `Interface`: the peer map is sorted
strictly by key, each entry's value carries its key as `public_key`, the
listen port is a `u16` and the fwmark a `u32`. -/
def ItfWf (itf : Interface) : Prop :=
  itf.peers.Pairwise (fun a b => a.1 < b.1)
    ∧ (∀ kp ∈ itf.peers, kp.2.public_key = kp.1)
    ∧ (∀ x ∈ itf.listen_port, x < 65536)
    ∧ itf.fwmark < 4294967296

/-- A peer carrying only the content a `set` frame can transport: no
transfer counters, no handshake timestamp, and a keepalive interval within
`u16` range. -/
def PeerSetOnly (p : Peer) : Prop :=
  p.rx_bytes = none ∧ p.tx_bytes = none ∧ p.time_since_last_handshake = none
    ∧ ∀ x ∈ p.persistent_keepalive_interval, x < 65536

/-- The interface-level parser state reached after the serialized interface
lines of a `set` device body. -/
def ifaceSt (dev : SetDevice) : TopSt :=
  { itf := { private_key := dev.private_key
             listen_port := dev.listen_port.bind fun x => if 0 < x then some x else none
             fwmark := dev.fwmark.getD 0
             peers := [] }
    inited := dev.private_key.isSome || dev.listen_port.isSome || dev.fwmark.isSome
    errno := 0 }

/-- The peer the parser rebuilds from one serialized `set` peer. -/
def peerOfSet (p : SetPeer) : Peer :=
  { public_key := p.public_key
    endpoint := p.endpoint
    persistent_keepalive_interval := p.persistent_keepalive_interval
    allowed_ips := p.allowed_ips }

/-- The peer accumulator reached after the attribute lines of one serialized
`set` peer. -/
def accOf (p : SetPeer) : PAcc :=
  { peer := peerOfSet p, lht := none }

/-- Inserting the rebuilt peers of a sequence of `set` peers into a peer map. -/
def foldIns (s : List (Nat × Peer)) (ps : List SetPeer) : List (Nat × Peer) :=
  ps.foldl (fun s p => btInsert p.public_key (peerOfSet p) s) s

/-- Inserting the rebuilt peers of a sequence of `set` peers into the parser
state. -/
def insertAll (st : TopSt) (ps : List SetPeer) : TopSt :=
  { st with itf := { st.itf with peers := foldIns st.itf.peers ps } }

end Uapi

namespace Dev

/-- `std::net::IpAddr`: a v4 or v6 address, the address itself abstract. -/
inductive IpAddr
  | v4 (a : Nat)
  | v6 (a : Nat)
deriving DecidableEq

/-- An allowed-IP network of the consolidated interface: the host network of
a meshnet address, or one of the two default routes `0.0.0.0/0` / `::/0`. -/
inductive IpNet
  | host (a : IpAddr)
  | default4
  | default6
deriving DecidableEq

/-- `telio_model::config::PeerBase`. -/
structure PeerBase where
  identifier : String := ""
  public_key : Nat := 0
  hostname : String := ""
  ip_addresses : Option (List IpAddr) := none
deriving DecidableEq

/-- `telio_model::config::Peer` (a meshnet config entry). -/
structure ConfigPeer where
  base : PeerBase := {}
  allow_incoming_connections : Bool := false
  allow_peer_send_files : Bool := false
deriving DecidableEq

/-- `telio_model::config::Config` (a meshnet config), restricted to the
fields the embedded operations read. -/
structure MeshConfig where
  this : PeerBase := {}
  peers : Option (List ConfigPeer) := none
deriving DecidableEq

/-- `telio_model::mesh::ExitNode`. -/
structure ExitNode where
  identifier : String := ""
  public_key : Nat := 0
  endpoint : Option Nat := none
  allowed_ips : Option (List IpNet) := none
deriving DecidableEq

/-- `device::RequestedState`, restricted to the fields the embedded
operations read and write. -/
structure RequestedState where
  device_private_key : Nat := 0
  meshnet_config : Option MeshConfig := none
  old_meshnet_config : Option MeshConfig := none
  exit_node : Option ExitNode := none
  last_exit_node : Option ExitNode := none
  upstream_servers : Option (List IpAddr) := none
deriving DecidableEq

/-- `wg_controller::Error`, restricted to the variant the claims mention. -/
inductive CtrlError
  | badAllowedIps
deriving DecidableEq

/-- `device::Error`, restricted to the variants the embedded operations
produce. -/
inductive DevError
  | badPublicKey
  | badPrivateKey
  | endpointNotProvided
  | invalidNode
  | dnsNotDisabled
  | controller (e : CtrlError)
deriving DecidableEq

/-- A desired WireGuard peer as the consolidator computes it. -/
structure DesiredPeer where
  public_key : Nat := 0
  allowed_ips : List IpNet := []
deriving DecidableEq

/-- The runtime state the embedded operations act on: the requested state,
the feature flag `validate_keys`, whether a DNS resolver is active, the live
interface's private key, and the log of UAPI `set` commands issued so far.
Collaborator calls without observable effect on these (proxy, DERP, nurse,
cross-ping-check reconfiguration, DNS forwarding) are elided. -/
structure DeviceState where
  validate_keys : Bool := true
  requested : RequestedState := {}
  dns_resolver_active : Bool := false
  live_private_key : Option Nat := none
  uapi_log : List (List DesiredPeer) := []
deriving DecidableEq

/-- Whether a public key belongs to the requested meshnet peer list. -/
def isMeshnetPeer (rs : RequestedState) (pk : Nat) : Bool :=
  match rs.meshnet_config with
  | some cfg => (cfg.peers.getD []).any fun p => p.base.public_key = pk
  | none => false

/-- Modelled from the spec: the consolidator's desired meshnet peers — for
each meshnet peer, `allowed_ips = peer.ip_addresses` plus the default routes
when that peer is the current meshnet exit (`wg_controller` is declared by
`device/mod.rs` but its file is absent from the sources). -/
def meshDesiredPeers (rs : RequestedState) : List DesiredPeer :=
  match rs.meshnet_config with
  | none => []
  | some cfg => (cfg.peers.getD []).map fun p =>
      { public_key := p.base.public_key
        allowed_ips := (p.base.ip_addresses.getD []).map .host
          ++ (if (rs.exit_node.map fun en => en.public_key).getD (p.base.public_key + 1)
                = p.base.public_key
              then [.default4, .default6] else []) }

/-- Modelled from the spec: the optional VPN exit peer — present when the
requested exit node is not a meshnet peer, its `allowed_ips` defaulting to
the default routes. -/
def vpnExitPeer (rs : RequestedState) : Option DesiredPeer :=
  rs.exit_node.bind fun en =>
    if isMeshnetPeer rs en.public_key then none
    else some { public_key := en.public_key
                allowed_ips := en.allowed_ips.getD [.default4, .default6] }

/-- Modelled from the spec: the consolidator's full desired peer set. -/
def desiredPeers (rs : RequestedState) : List DesiredPeer :=
  meshDesiredPeers rs ++ (vpnExitPeer rs).toList

/-- Pairwise disjointness of the desired peers' allowed IPs. -/
def disjointAllowedIps : List DesiredPeer → Bool
  | [] => true
  | p :: t =>
    (p.allowed_ips.all fun a => t.all fun q => decide (a ∉ q.allowed_ips))
      && disjointAllowedIps t

/-- Modelled from the spec: `wg_controller::consolidate_wg_state` — a
duplicate allowed IP across two desired peers fails with `BadAllowedIps`
before any UAPI command is issued; otherwise the `set` command for the
desired peer set is emitted. -/
def consolidate_wg_state (rs : RequestedState) : Except DevError (List DesiredPeer) :=
  if disjointAllowedIps (desiredPeers rs) then .ok (desiredPeers rs)
  else .error (.controller .badAllowedIps)

/-- Running a consolidation from the runtime: a successful consolidation
appends its `set` command to the UAPI log; a failing one leaves it alone. -/
def consolidateInto (st : DeviceState) : Except DevError Unit × DeviceState :=
  match consolidate_wg_state st.requested with
  | .ok cmds => (.ok (), { st with uapi_log := st.uapi_log ++ [cmds] })
  | .error e => (.error e, st)

/-- `Runtime::connect_exit_node`: a node that is neither a meshnet peer nor
carries an endpoint is rejected; otherwise `requested_state.exit_node` is set
to the node and a consolidation runs. -/
def connect_exit_node (st : DeviceState) (node : ExitNode) : Except DevError Unit × DeviceState :=
  if isMeshnetPeer st.requested node.public_key then
    consolidateInto { st with requested := { st.requested with exit_node := some node } }
  else if node.endpoint = none then (.error .endpointNotProvided, st)
  else
    consolidateInto { st with requested := { st.requested with exit_node := some node } }

/-- `Runtime::disconnect_exit_nodes`. -/
def disconnect_exit_nodes (st : DeviceState) : Except DevError Unit × DeviceState :=
  match st.requested.exit_node with
  | none => (.ok (), st)
  | some en =>
    consolidateInto { st with requested := { st.requested with
      exit_node := none
      last_exit_node := some en } }

/-- `Runtime::set_private_key`: while meshnet is on and keys are validated, a
key different from the current device key is rejected with `BadPublicKey`
before anything is written; an active DNS resolver is rejected next;
otherwise the key is recorded and a consolidation runs. -/
def set_private_key (st : DeviceState) (k : Nat) : Except DevError Unit × DeviceState :=
  if st.validate_keys ∧ st.requested.meshnet_config.isSome
      ∧ st.requested.device_private_key ≠ k then
    (.error .badPublicKey, st)
  else if st.dns_resolver_active then (.error .dnsNotDisabled, st)
  else
    consolidateInto { st with requested := { st.requested with device_private_key := k } }

/-- The exit-node demotion condition of `Runtime::set_config` (LLT-4266):
when meshnet is being disabled, an exit node whose public key appears among
the previous config's peers is cleared. -/
def demoteCond (rs : RequestedState) : Bool :=
  match rs.exit_node, rs.old_meshnet_config with
  | some en, some cfg =>
    match cfg.peers with
    | some ps => ps.any fun p => p.base.public_key = en.public_key
    | none => false
  | _, _ => false

/-- `Runtime::set_config`: a config whose `this.public_key` mismatches the
device key is rejected with `BadPublicKey` (when keys are validated); then
the old and new configs are recorded, a missing live private key is rejected
with `BadPrivateKey`, the exit node is demoted when meshnet is being
disabled, and a consolidation runs. -/
def set_config_body (st : DeviceState) (config : Option MeshConfig) :
    Except DevError Unit × DeviceState :=
  let st1 : DeviceState := { st with requested := { st.requested with
    old_meshnet_config := st.requested.meshnet_config
    meshnet_config := config } }
  match st1.live_private_key with
  | none => (.error .badPrivateKey, st1)
  | some _ =>
    let st2 : DeviceState :=
      if st1.requested.meshnet_config.isNone ∧ demoteCond st1.requested then
        { st1 with requested := { st1.requested with exit_node := none } }
      else st1
    consolidateInto st2

/-- `Runtime::set_config`, the entry check: a config whose `this.public_key`
mismatches the device key is rejected with `BadPublicKey` (when keys are
validated) before anything is recorded. -/
def set_config (publicOf : Nat → Nat) (st : DeviceState) (config : Option MeshConfig) :
    Except DevError Unit × DeviceState :=
  match config with
  | some cfg =>
    if st.validate_keys ∧ cfg.this.public_key ≠ publicOf st.requested.device_private_key then
      (.error .badPublicKey, st)
    else set_config_body st config
  | none => set_config_body st config

/-- `RequestedState::collect_dns_records`: the hostname-to-addresses pairs of
the requested meshnet peers plus `this`, keeping only entries that carry
addresses (the `Records` hash map is modelled as the association list in
construction order; the claims' hostnames are distinct). -/
def collect_dns_records (rs : RequestedState) : List (String × List IpAddr) :=
  let ps : List ConfigPeer :=
    match rs.meshnet_config with
    | none => []
    | some cfg => (cfg.peers.getD []) ++ [{ base := cfg.this }]
  ps.filterMap fun p => p.base.ip_addresses.map fun ips => (p.base.hostname, ips)

/-- `Runtime::upsert_dns_peers`: the collected records are upserted under the
`"nord"` zone. -/
def upsert_dns_args (rs : RequestedState) : String × List (String × List IpAddr) :=
  ("nord", collect_dns_records rs)

/-- The exit-demotion condition of `set_config(None)` phrased on the
pre-call requested state: the exit node exists and its public key appears
among the current config's peers. -/
def exitDemotes (rs : RequestedState) : Bool :=
  match rs.exit_node, rs.meshnet_config with
  | some en, some cfg =>
    match cfg.peers with
    | some ps => ps.any fun p => p.base.public_key = en.public_key
    | none => false
  | _, _ => false

/-- A meshnet config with two peers owning one IPv4 address each
(the scenario of `test_duplicate_allowed_ips`). -/
def twoPeerConfig : MeshConfig :=
  { this := { public_key := 5 }
    peers := some [
      { base := { public_key := 1, ip_addresses := some [.v4 10] } },
      { base := { public_key := 2, ip_addresses := some [.v4 20] } } ] }

/-- A started device with `twoPeerConfig` as the requested meshnet config. -/
def twoPeerState : DeviceState :=
  { requested := { device_private_key := 5, meshnet_config := some twoPeerConfig }
    live_private_key := some 5 }

/-- A VPN exit node whose allowed IPs steal the first mesh peer's address. -/
def stealingVpnNode : ExitNode :=
  { public_key := 3, endpoint := some 7, allowed_ips := some [.host (.v4 10)] }

/-- A meshnet config whose single peer `M` has public key 7
(the exit-demote scenario). -/
def configWithM : MeshConfig :=
  { this := { public_key := 5 }
    peers := some [ { base := { public_key := 7, ip_addresses := some [.v4 1] } } ] }

/-- A meshnet config that does not contain peer `M`. -/
def configWithoutM : MeshConfig :=
  { this := { public_key := 5 }
    peers := some [ { base := { public_key := 8, ip_addresses := some [.v4 2] } } ] }

/-- A started device with private key 5 and no meshnet config. -/
def startedState : DeviceState :=
  { requested := { device_private_key := 5 }, live_private_key := some 5 }

/-- The device after `set_config(configWithM)` and connecting the meshnet
exit peer `M`. -/
def connectedToM : DeviceState :=
  (connect_exit_node (set_config id startedState (some configWithM)).2
    { public_key := 7 }).2

end Dev

/-! ### Decimal codec lemmas -/

theorem charDigit?_digitChar (d : Nat) (h : d < 10) : charDigit? (digitChar d) = some d := by
  interval_cases d <;> decide

theorem natToCharsAux_congr : ∀ (n f1 f2 : Nat), n < f1 → n < f2 →
    natToCharsAux f1 n = natToCharsAux f2 n := by
  intro n
  induction n using Nat.strong_induction_on with
  | _ n ih =>
    intro f1 f2 h1 h2
    cases f1 with
    | zero => exact absurd h1 (by omega)
    | succ g1 =>
      cases f2 with
      | zero => exact absurd h2 (by omega)
      | succ g2 =>
        simp only [natToCharsAux]
        split
        · rfl
        · next h =>
          have hd : n / 10 < n := Nat.div_lt_self (by omega) (by omega)
          rw [ih (n / 10) hd g1 g2 (by omega) (by omega)]

theorem natToChars_eq (n : Nat) : natToChars n =
    if n < 10 then [digitChar n] else natToChars (n / 10) ++ [digitChar (n % 10)] := by
  show natToCharsAux (n + 1) n = _
  simp only [natToCharsAux]
  split
  · rfl
  · next h =>
    congr 1
    exact natToCharsAux_congr (n / 10) n (n / 10 + 1)
      (Nat.div_lt_self (by omega) (by omega)) (by omega)

theorem mem_natToChars (n : Nat) (c : Char) (hc : c ∈ natToChars n) :
    ∃ d, d < 10 ∧ c = digitChar d := by
  induction n using Nat.strong_induction_on with
  | _ n ih =>
    rw [natToChars_eq] at hc
    split at hc
    · exact ⟨n, by omega, by simpa using hc⟩
    · rcases List.mem_append.1 hc with h1 | h1
      · exact ih (n / 10) (Nat.div_lt_self (by omega) (by omega)) h1
      · exact ⟨n % 10, Nat.mod_lt _ (by omega), by simpa using h1⟩

theorem natToChars_ne_nil (n : Nat) : natToChars n ≠ [] := by
  rw [natToChars_eq]
  split
  · simp
  · simp

theorem eq_not_mem_natToChars (n : Nat) : '=' ∉ natToChars n := by
  intro hc
  obtain ⟨d, hd, hcd⟩ := mem_natToChars n _ hc
  interval_cases d <;> simp_all [digitChar]

theorem dash_not_mem_natToChars (n : Nat) : '-' ∉ natToChars n := by
  intro hc
  obtain ⟨d, hd, hcd⟩ := mem_natToChars n _ hc
  interval_cases d <;> simp_all [digitChar]

theorem digitsAux_append (acc : Nat) (xs ys : List Char) :
    digitsAux acc (xs ++ ys) = (digitsAux acc xs).bind fun m => digitsAux m ys := by
  induction xs generalizing acc with
  | nil => simp [digitsAux]
  | cons c cs ih =>
    simp only [List.cons_append, digitsAux]
    cases charDigit? c with
    | none => simp
    | some d => simp [ih]

theorem digitsAux_zero_natToChars (n : Nat) :
    ∀ acc, digitsAux acc (natToChars n) = some (acc * 10 ^ (natToChars n).length + n) := by
  induction n using Nat.strong_induction_on with
  | _ n ih =>
    intro acc
    rw [natToChars_eq]
    split
    · next h =>
      simp [digitsAux, charDigit?_digitChar n h]
    · next h =>
      rw [digitsAux_append, ih (n / 10) (Nat.div_lt_self (by omega) (by omega))]
      have hd : charDigit? (digitChar (n % 10)) = some (n % 10) :=
        charDigit?_digitChar _ (Nat.mod_lt _ (by omega))
      simp only [Option.some_bind, digitsAux, hd, List.length_append, List.length_cons,
        List.length_nil, Nat.zero_add]
      have h1 : n / 10 * 10 + n % 10 = n := by
        have := Nat.div_add_mod n 10
        omega
      congr 1
      calc (acc * 10 ^ (natToChars (n / 10)).length + n / 10) * 10 + n % 10
          = acc * 10 ^ (natToChars (n / 10)).length * 10 + (n / 10 * 10 + n % 10) := by ring
        _ = acc * 10 ^ ((natToChars (n / 10)).length + 1) + n := by rw [h1, pow_succ]; ring

theorem digitsToNat?_natToChars (n : Nat) : digitsToNat? (natToChars n) = some n := by
  have h := digitsAux_zero_natToChars n 0
  simp only [digitsToNat?, List.isEmpty_iff]
  rw [if_neg (natToChars_ne_nil n)]
  simpa using h

theorem parseU64_natToChars (n : Nat) (h : n < 18446744073709551616) :
    parseU64 (natToChars n) = some n := by
  simp [parseU64, digitsToNat?_natToChars, h]

theorem parseU32_natToChars (n : Nat) (h : n < 4294967296) :
    parseU32 (natToChars n) = some n := by
  simp [parseU32, digitsToNat?_natToChars, h]

theorem parseU16_natToChars (n : Nat) (h : n < 65536) :
    parseU16 (natToChars n) = some n := by
  simp [parseU16, digitsToNat?_natToChars, h]

theorem natToChars_head_not_dash (n : Nat) : (natToChars n).head? ≠ some '-' := by
  intro h
  have : '-' ∈ natToChars n := by
    cases hn : natToChars n with
    | nil => simp [hn] at h
    | cons c cs =>
      simp [hn] at h
      simp [hn, h]
  exact dash_not_mem_natToChars n this

theorem parseI32_natToChars (n : Nat) (h : n < 2147483648) :
    parseI32 (natToChars n) = some (n : Int) := by
  simp [parseI32, natToChars_head_not_dash, digitsToNat?_natToChars, h]

theorem splitEq_append (k v : List Char) (h : '=' ∉ k) :
    splitEqList (k ++ '=' :: v) = some (k, v) := by
  induction k with
  | nil => simp [splitEqList]
  | cons c cs ih =>
    simp only [List.mem_cons, not_or] at h
    simp [splitEqList, Ne.symm h.1, ih h.2]

theorem splitEq_kv (s : String) (v : List Char) (h : '=' ∉ s.toList) :
    splitEqList (kv s v) = some (s.toList, v) :=
  splitEq_append _ _ h

theorem kv_ne_nil (s : String) (v : List Char) : kv s v ≠ [] := by
  simp [kv]

/-! ### Parser step lemmas -/

namespace Uapi

theorem response_nil_none (now : Nat) (st : TopSt) :
    response_from_lines now [] st none = .ok (mkResp st) := rfl

theorem response_nil_some (now : Nat) (st : TopSt) (a : PAcc) :
    response_from_lines now [] st (some a) = .ok (mkResp (insertPeer now st a)) := rfl

theorem response_cons (now : Nat) (l : List Char) (rest : List (List Char))
    (st : TopSt) (cur : Option PAcc) :
    response_from_lines now (l :: rest) st cur =
      (if l = [] then
        match cur with
        | none => .ok (mkResp st)
        | some a => response_from_lines now rest (insertPeer now st a) none
      else
        match splitEqList l with
        | none => .error (.parsingError "cmd" "not in A=B format")
        | some (k, v) =>
          match (match cur with
                 | none => topStep k v st
                 | some a => peerStep now k v st a) with
          | .error e => .error e
          | .ok (st2, cur2) => response_from_lines now rest st2 cur2) := rfl

theorem response_blank_none (now : Nat) (rest : List (List Char)) (st : TopSt) :
    response_from_lines now ([] :: rest) st none = .ok (mkResp st) := rfl

theorem response_blank_some (now : Nat) (rest : List (List Char)) (st : TopSt) (a : PAcc) :
    response_from_lines now ([] :: rest) st (some a) =
      response_from_lines now rest (insertPeer now st a) none := rfl

theorem response_cons_kv (now : Nat) (s : String) (v : List Char) (rest : List (List Char))
    (st : TopSt) (cur : Option PAcc) (h : '=' ∉ s.toList) :
    response_from_lines now (kv s v :: rest) st cur =
      match (match cur with
             | none => topStep s.toList v st
             | some a => peerStep now s.toList v st a) with
      | .error e => .error e
      | .ok (st2, cur2) => response_from_lines now rest st2 cur2 := by
  rw [response_cons, if_neg (kv_ne_nil s v), splitEq_kv s v h]

theorem topStep_private_key (x : Nat) (st : TopSt) :
    topStep (String.toList "private_key") (natToChars x) st =
      .ok ({ st with inited := true, itf := { st.itf with private_key := some x } }, none) := by
  simp +decide [topStep, digitsToNat?_natToChars]

theorem topStep_listen_port (x : Nat) (hx : x < 65536) (st : TopSt) :
    topStep (String.toList "listen_port") (natToChars x) st =
      .ok ({ st with inited := true, itf := { st.itf with
              listen_port := if 0 < x then some x else st.itf.listen_port } }, none) := by
  simp +decide [topStep, parseU16_natToChars x hx]

theorem topStep_fwmark (x : Nat) (hx : x < 4294967296) (st : TopSt) :
    topStep (String.toList "fwmark") (natToChars x) st =
      .ok ({ st with inited := true, itf := { st.itf with fwmark := x } }, none) := by
  simp +decide [topStep, parseU32_natToChars x hx]

theorem topStep_public_key (x : Nat) (st : TopSt) :
    topStep (String.toList "public_key") (natToChars x) st =
      .ok ({ st with inited := true }, some { peer := { public_key := x } }) := by
  simp +decide [topStep, digitsToNat?_natToChars]

theorem topStep_errno (x : Nat) (hx : x < 2147483648) (st : TopSt) :
    topStep (String.toList "errno") (natToChars x) st =
      .ok ({ st with errno := (x : Int) }, none) := by
  simp +decide [topStep, parseI32_natToChars x hx]

theorem peerStep_endpoint (now x : Nat) (st : TopSt) (a : PAcc) :
    peerStep now (String.toList "endpoint") (natToChars x) st a =
      .ok (st, some { a with peer := { a.peer with endpoint := some x } }) := by
  simp +decide [peerStep, digitsToNat?_natToChars]

theorem peerStep_keepalive (now x : Nat) (hx : x < 4294967296) (st : TopSt) (a : PAcc) :
    peerStep now (String.toList "persistent_keepalive_interval") (natToChars x) st a =
      .ok (st, some { a with
        peer := { a.peer with persistent_keepalive_interval := some x } }) := by
  simp +decide [peerStep, parseU32_natToChars x hx]

theorem peerStep_allowed_ip (now x : Nat) (st : TopSt) (a : PAcc) :
    peerStep now (String.toList "allowed_ip") (natToChars x) st a =
      .ok (st, some { a with
        peer := { a.peer with allowed_ips := a.peer.allowed_ips ++ [x] } }) := by
  simp +decide [peerStep, digitsToNat?_natToChars]

theorem peerStep_rx_bytes (now x : Nat) (hx : x < 18446744073709551616)
    (st : TopSt) (a : PAcc) :
    peerStep now (String.toList "rx_bytes") (natToChars x) st a =
      .ok (st, some { a with peer := { a.peer with rx_bytes := some x } }) := by
  simp +decide [peerStep, parseU64_natToChars x hx]

theorem peerStep_tx_bytes (now x : Nat) (hx : x < 18446744073709551616)
    (st : TopSt) (a : PAcc) :
    peerStep now (String.toList "tx_bytes") (natToChars x) st a =
      .ok (st, some { a with peer := { a.peer with tx_bytes := some x } }) := by
  simp +decide [peerStep, parseU64_natToChars x hx]

theorem peerStep_public_key (now x : Nat) (st : TopSt) (a : PAcc) :
    peerStep now (String.toList "public_key") (natToChars x) st a =
      .ok (insertPeer now st a, some { peer := { public_key := x } }) := by
  simp +decide [peerStep, digitsToNat?_natToChars]

theorem peerStep_errno (now x : Nat) (hx : x < 2147483648) (st : TopSt) (a : PAcc) :
    peerStep now (String.toList "errno") (natToChars x) st a =
      .ok ({ insertPeer now st a with errno := (x : Int) }, none) := by
  simp +decide [peerStep, parseI32_natToChars x hx]

/-! ### Round-trip assembly lemmas -/

theorem response_set1 (now : Nat) (rest : List (List Char)) (st : TopSt) :
    response_from_lines now (String.toList "set=1" :: rest) st none =
      response_from_lines now rest st none := by
  rw [response_cons]
  rw [if_neg (by decide : ¬(String.toList "set=1" = ([] : List Char)))]
  rw [show splitEqList (String.toList "set=1") = some (String.toList "set", ['1']) from by decide]
  simp +decide [topStep]

theorem finishPeer_accOf (now : Nat) (p : SetPeer) :
    finishPeer now (accOf p) = peerOfSet p := rfl

theorem parse_allowed_lines (now : Nat) (ips : List Nat) :
    ∀ (rest : List (List Char)) (st : TopSt) (a : PAcc),
      response_from_lines now
          ((ips.map fun ip => kv "allowed_ip" (natToChars ip)) ++ rest) st (some a) =
        response_from_lines now rest st
          (some { a with peer := { a.peer with
            allowed_ips := a.peer.allowed_ips ++ ips } }) := by
  induction ips with
  | nil =>
    intro rest st a
    simp only [List.map_nil, List.nil_append, List.append_nil]
  | cons ip t ih =>
    intro rest st a
    simp only [List.map_cons, List.cons_append]
    rw [response_cons_kv _ _ _ _ _ _ (by decide)]
    simp only [peerStep_allowed_ip]
    rw [ih]
    simp [List.append_assoc]

theorem parse_peer_attrs (now : Nat) (p : SetPeer)
    (hk : ∀ x ∈ p.persistent_keepalive_interval, x < 4294967296) :
    ∀ (rest : List (List Char)) (st : TopSt),
      response_from_lines now (serPeerAttrs p ++ rest) st
          (some { peer := { public_key := p.public_key } }) =
        response_from_lines now rest st (some (accOf p)) := by
  intro rest st
  rcases p with ⟨pk, ep, kai, ips⟩
  cases ep with
  | none =>
    cases kai with
    | none =>
      simp only [serPeerAttrs, Option.map_none', Option.toList, List.nil_append]
      rw [parse_allowed_lines]
      simp [accOf, peerOfSet]
    | some x =>
      simp only [serPeerAttrs, Option.map_none', Option.map_some', Option.toList,
        List.nil_append, List.singleton_append, List.cons_append]
      rw [response_cons_kv _ "persistent_keepalive_interval" _ _ _ _ (by decide)]
      simp only [peerStep_keepalive now x (hk x rfl)]
      rw [parse_allowed_lines]
      simp [accOf, peerOfSet]
  | some e =>
    cases kai with
    | none =>
      simp only [serPeerAttrs, Option.map_none', Option.map_some', Option.toList,
        List.nil_append, List.singleton_append, List.cons_append]
      rw [response_cons_kv _ "endpoint" _ _ _ _ (by decide)]
      simp only [peerStep_endpoint]
      rw [parse_allowed_lines]
      simp [accOf, peerOfSet]
    | some x =>
      simp only [serPeerAttrs, Option.map_some', Option.toList,
        List.singleton_append, List.cons_append]
      rw [response_cons_kv _ "endpoint" _ _ _ _ (by decide)]
      simp only [peerStep_endpoint, List.nil_append, List.singleton_append, List.cons_append]
      rw [response_cons_kv _ "persistent_keepalive_interval" _ _ _ _ (by decide)]
      simp only [peerStep_keepalive now x (hk x rfl)]
      rw [parse_allowed_lines]
      simp [accOf, peerOfSet]

theorem parse_peer_blocks (now : Nat) (ps : List SetPeer)
    (hk : ∀ p ∈ ps, ∀ x ∈ p.persistent_keepalive_interval, x < 4294967296) :
    ∀ (st : TopSt) (a : PAcc),
      response_from_lines now (ps.flatMap serSetPeer ++ [[]]) st (some a) =
        .ok (mkResp (insertAll (insertPeer now st a) ps)) := by
  induction ps with
  | nil =>
    intro st a
    simp only [List.flatMap_nil, List.nil_append]
    rw [response_blank_some, response_nil_none]
    rfl
  | cons p t ih =>
    intro st a
    simp only [List.flatMap_cons, serSetPeer, List.cons_append, List.append_assoc]
    rw [response_cons_kv _ _ _ _ _ _ (by decide)]
    simp only [peerStep_public_key]
    rw [parse_peer_attrs now p (hk p (by simp))]
    rw [ih (fun q hq => hk q (by simp [hq]))]
    rfl

theorem parse_privkey_lines (now : Nat) (opk : Option Nat) (rest : List (List Char))
    (st : TopSt) :
    response_from_lines now
        ((opk.map fun x => kv "private_key" (natToChars x)).toList ++ rest) st none =
      response_from_lines now rest { st with
        inited := st.inited || opk.isSome
        itf := { st.itf with private_key := opk.or st.itf.private_key } } none := by
  cases opk with
  | none => simp [Option.toList, Option.or]
  | some x =>
    simp only [Option.map_some', Option.toList, List.singleton_append]
    rw [response_cons_kv _ "private_key" _ _ _ _ (by decide)]
    simp only [topStep_private_key]
    simp [Option.or]

theorem parse_listen_lines (now : Nat) (olp : Option Nat) (h16 : ∀ x ∈ olp, x < 65536)
    (rest : List (List Char)) (st : TopSt) :
    response_from_lines now
        ((olp.map fun x => kv "listen_port" (natToChars x)).toList ++ rest) st none =
      response_from_lines now rest { st with
        inited := st.inited || olp.isSome
        itf := { st.itf with
          listen_port := olp.elim st.itf.listen_port
            fun x => if 0 < x then some x else st.itf.listen_port } } none := by
  cases olp with
  | none => simp [Option.toList]
  | some x =>
    simp only [Option.map_some', Option.toList, List.singleton_append]
    rw [response_cons_kv _ "listen_port" _ _ _ _ (by decide)]
    simp only [topStep_listen_port x (h16 x rfl)]
    simp

theorem parse_fwmark_lines (now : Nat) (ofw : Option Nat) (h32 : ∀ x ∈ ofw, x < 4294967296)
    (rest : List (List Char)) (st : TopSt) :
    response_from_lines now
        ((ofw.map fun x => kv "fwmark" (natToChars x)).toList ++ rest) st none =
      response_from_lines now rest { st with
        inited := st.inited || ofw.isSome
        itf := { st.itf with fwmark := ofw.getD st.itf.fwmark } } none := by
  cases ofw with
  | none => simp [Option.toList]
  | some x =>
    simp only [Option.map_some', Option.toList, List.singleton_append]
    rw [response_cons_kv _ "fwmark" _ _ _ _ (by decide)]
    simp only [topStep_fwmark x (h32 x rfl)]
    simp

theorem parse_iface_lines (now : Nat) (dev : SetDevice)
    (h16 : ∀ x ∈ dev.listen_port, x < 65536)
    (h32 : ∀ x ∈ dev.fwmark, x < 4294967296) (rest : List (List Char)) :
    response_from_lines now (serSetDevice dev ++ rest) {} none =
      response_from_lines now (dev.peers.flatMap serSetPeer ++ rest) (ifaceSt dev) none := by
  rcases dev with ⟨opk, olp, ofw, ps⟩
  simp only [serSetDevice, List.append_assoc]
  rw [parse_privkey_lines, parse_listen_lines now olp h16, parse_fwmark_lines now ofw h32]
  congr 1
  cases opk <;> cases olp <;> cases ofw <;>
    simp [ifaceSt, Option.or, Option.elim, Option.getD]

theorem peerOfSet_setPeer (p : Peer) (h : PeerSetOnly p) :
    peerOfSet (setPeer_of_peer p) = p := by
  obtain ⟨h1, h2, h3, h4⟩ := h
  rcases p with ⟨pk, ep, kai, ips, rx, tx, t⟩
  cases kai with
  | none => simp_all [peerOfSet, setPeer_of_peer]
  | some x =>
    have hx : x < 65536 := h4 x rfl
    simp_all [peerOfSet, setPeer_of_peer, Nat.mod_eq_of_lt hx]

theorem btInsert_gt (k : Nat) (p : Peer) (s : List (Nat × Peer)) (h : ∀ q ∈ s, q.1 < k) :
    btInsert k p s = s ++ [(k, p)] := by
  induction s with
  | nil => rfl
  | cons q t ih =>
    rcases q with ⟨k2, p2⟩
    have hq : k2 < k := h (k2, p2) (by simp)
    rw [btInsert]
    rw [if_neg (by omega), if_neg (by omega)]
    rw [ih fun r hr => h r (by simp [hr])]
    simp

theorem foldIns_sorted (l : List (Nat × Peer)) :
    ∀ s : List (Nat × Peer),
      (∀ q ∈ s, ∀ r ∈ l, q.1 < r.1) →
      l.Pairwise (fun a b => a.1 < b.1) →
      (∀ kp ∈ l, kp.2.public_key = kp.1 ∧ PeerSetOnly kp.2) →
      foldIns s (l.map fun kp => setPeer_of_peer kp.2) = s ++ l := by
  induction l with
  | nil =>
    intro s _ _ _
    simp [foldIns]
  | cons kp t ih =>
    intro s hs hp hset
    simp only [List.map_cons]
    show foldIns
      (btInsert (setPeer_of_peer kp.2).public_key (peerOfSet (setPeer_of_peer kp.2)) s)
      (t.map fun kp => setPeer_of_peer kp.2) = s ++ kp :: t
    have hkey : (setPeer_of_peer kp.2).public_key = kp.1 := (hset kp (by simp)).1
    rw [peerOfSet_setPeer _ (hset kp (by simp)).2, hkey]
    rw [btInsert_gt _ _ _ fun q hq => hs q hq kp (by simp)]
    rw [ih (s ++ [(kp.1, kp.2)]) ?_ (List.Pairwise.of_cons hp) ?_]
    · simp
    · intro q hq r hr
      rcases List.mem_append.1 hq with h1 | h1
      · exact hs q h1 r (by simp [hr])
      · have hq1 : q = (kp.1, kp.2) := by simpa using h1
        have := (List.pairwise_cons.1 hp).1 r hr
        rw [hq1]
        exact this
    · intro q hq
      exact hset q (by simp [hq])

theorem setPeer_kai_bound (p : Peer) :
    ∀ x ∈ (setPeer_of_peer p).persistent_keepalive_interval, x < 4294967296 := by
  cases hk : p.persistent_keepalive_interval with
  | none => simp [setPeer_of_peer, hk]
  | some y =>
    simp only [setPeer_of_peer, hk, Option.map_some', Option.mem_def, Option.some.injEq]
    intro x hx
    have := Nat.mod_lt y (y := 65536) (by omega)
    omega

theorem ifaceSt_itf_canon (itf : Interface) :
    ({ (ifaceSt (setDevice_of_interface itf)).itf with peers := itf.peers } : Interface)
      = zeroPortCanon itf := by
  rcases itf with ⟨opk, olp, fw, ps⟩
  cases olp with
  | none => cases fw <;> rfl
  | some x =>
    cases x with
    | zero => cases fw <;> rfl
    | succ n => cases fw <;> simp [ifaceSt, setDevice_of_interface, zeroPortCanon]

theorem ifaceSt_inited (itf : Interface)
    (h : itf.private_key.isSome ∨ itf.listen_port.isSome ∨ itf.fwmark ≠ 0) :
    (ifaceSt (setDevice_of_interface itf)).inited = true := by
  rcases itf with ⟨opk, olp, fw, ps⟩
  rcases h with h | h | h
  · cases opk <;> simp_all [ifaceSt, setDevice_of_interface]
  · cases opk <;> cases olp <;> simp_all [ifaceSt, setDevice_of_interface]
  · cases opk <;> cases olp <;> cases fw <;> simp_all [ifaceSt, setDevice_of_interface]

theorem uapi_set_body_parse (now : Nat) (itf : Interface)
    (h16 : ∀ x ∈ itf.listen_port, x < 65536) (h32 : itf.fwmark < 4294967296) :
    response_from_str now (serialize_set_cmd itf) =
      (match (setDevice_of_interface itf).peers with
       | [] => .ok (mkResp (ifaceSt (setDevice_of_interface itf)))
       | p :: tps => .ok (mkResp (insertAll
          (insertPeer now { ifaceSt (setDevice_of_interface itf) with inited := true }
            (accOf p)) tps))) := by
  have h16' : ∀ x ∈ (setDevice_of_interface itf).listen_port, x < 65536 := h16
  have h32' : ∀ x ∈ (setDevice_of_interface itf).fwmark, x < 4294967296 := by
    intro x hx
    rcases itf with ⟨opk, olp, fw, ps⟩
    cases fw with
    | zero => simp [setDevice_of_interface] at hx
    | succ n =>
      simp only [setDevice_of_interface, Option.mem_def, Option.some.injEq] at hx
      have h32n : n + 1 < 4294967296 := h32
      omega
  have hall : ∀ q ∈ (setDevice_of_interface itf).peers,
      ∀ x ∈ q.persistent_keepalive_interval, x < 4294967296 := by
    intro q hq
    rcases List.mem_map.1 hq with ⟨kp, _, rfl⟩
    exact setPeer_kai_bound _
  show response_from_lines now
      (String.toList "set=1" :: (serSetDevice (setDevice_of_interface itf) ++ [[]])) {} none = _
  rw [response_set1, parse_iface_lines now _ h16' h32']
  cases hps : (setDevice_of_interface itf).peers with
  | nil =>
    simp only [List.flatMap_nil, List.nil_append]
    rw [response_blank_none]
  | cons p tps =>
    simp only [List.flatMap_cons, serSetPeer, List.cons_append, List.append_assoc]
    rw [response_cons_kv _ "public_key" _ _ _ _ (by decide)]
    simp only [topStep_public_key]
    have hpk : ∀ x ∈ p.persistent_keepalive_interval, x < 4294967296 :=
      hall p (by rw [hps]; exact List.mem_cons_self p tps)
    rw [parse_peer_attrs now p hpk]
    exact parse_peer_blocks now tps
      (fun q hq => hall q (by rw [hps]; exact List.mem_cons_of_mem p hq)) _ _

/-- C6 (amended): the UAPI text codec round-trips every interface whose
content a `set` frame can transport — peers without transfer counters or
handshake timestamps and with keepalive intervals within `u16` range, and at
least one interface field or peer present — modulo the defaulting of
`listen_port = 0` to absent; get-only peer fields and keepalive truncation
make the unrestricted round-trip fail. -/
theorem uapi_set_round_trip (now : Nat) (itf : Interface)
    (hwf : ItfWf itf)
    (hset : ∀ kp ∈ itf.peers, PeerSetOnly kp.2)
    (hinit : itf.private_key.isSome ∨ itf.listen_port.isSome ∨ itf.fwmark ≠ 0
      ∨ itf.peers ≠ []) :
    response_from_str now (serialize_set_cmd itf) =
      .ok { errno := 0, interface := some (zeroPortCanon itf) } := by
  obtain ⟨hsorted, hkeys, h16, h32⟩ := hwf
  rw [uapi_set_body_parse now itf h16 h32]
  have hdev : (setDevice_of_interface itf).peers
      = itf.peers.map fun kp => setPeer_of_peer kp.2 := rfl
  have hfold : foldIns ([] : List (Nat × Peer)) (itf.peers.map fun kp => setPeer_of_peer kp.2)
      = itf.peers := by
    have := foldIns_sorted itf.peers [] (by simp) hsorted
      (fun q hq => ⟨hkeys q hq, hset q hq⟩)
    simpa using this
  cases hp : itf.peers with
  | nil =>
    have hin : (ifaceSt (setDevice_of_interface itf)).inited = true := by
      refine ifaceSt_inited itf ?_
      rcases hinit with h | h | h | h
      · exact Or.inl h
      · exact Or.inr (Or.inl h)
      · exact Or.inr (Or.inr h)
      · exact absurd hp h
    simp only [hdev, hp, List.map_nil]
    have hitf : (ifaceSt (setDevice_of_interface itf)).itf = zeroPortCanon itf := by
      conv_rhs => rw [← ifaceSt_itf_canon itf]
      rw [hp]
      rfl
    have herr : (ifaceSt (setDevice_of_interface itf)).errno = 0 := rfl
    simp [mkResp, hin, hitf, herr]
  | cons kp t =>
    simp only [hdev, hp, List.map_cons]
    refine congrArg Except.ok ?_
    have hxitf : (insertAll
        (insertPeer now { ifaceSt (setDevice_of_interface itf) with inited := true }
          (accOf (setPeer_of_peer kp.2)))
        (t.map fun kp => setPeer_of_peer kp.2)).itf = zeroPortCanon itf := by
      show ({ (ifaceSt (setDevice_of_interface itf)).itf with
        peers := foldIns ([] : List (Nat × Peer))
          ((kp :: t).map fun kp => setPeer_of_peer kp.2) } : Interface) = _
      rw [← hp, hfold, hp, ← hp]
      exact ifaceSt_itf_canon itf
    have hxin : (insertAll
        (insertPeer now { ifaceSt (setDevice_of_interface itf) with inited := true }
          (accOf (setPeer_of_peer kp.2)))
        (t.map fun kp => setPeer_of_peer kp.2)).inited = true := rfl
    have hxerr : (insertAll
        (insertPeer now { ifaceSt (setDevice_of_interface itf) with inited := true }
          (accOf (setPeer_of_peer kp.2)))
        (t.map fun kp => setPeer_of_peer kp.2)).errno = 0 := rfl
    simp [mkResp, hxitf, hxin, hxerr]

end Uapi

/-! ### Device runtime lemmas -/

namespace Dev

theorem disjointAllowedIps_append_false (l : List DesiredPeer) (q : DesiredPeer)
    (h : ∃ p ∈ l, ∃ a, a ∈ p.allowed_ips ∧ a ∈ q.allowed_ips) :
    disjointAllowedIps (l ++ [q]) = false := by
  induction l with
  | nil => simp at h
  | cons p t ih =>
    rcases h with ⟨p2, hp2, a, ha1, ha2⟩
    rcases List.mem_cons.1 hp2 with rfl | hmem
    · simp only [List.cons_append, disjointAllowedIps, Bool.and_eq_false_iff]
      left
      rw [Bool.eq_false_iff]
      intro hall
      rw [List.all_eq_true] at hall
      have h1 := hall a ha1
      rw [List.all_eq_true] at h1
      have h2 := h1 q (List.mem_append_right _ (by simp))
      rw [decide_eq_true_eq] at h2
      exact h2 ha2
    · simp only [List.cons_append, disjointAllowedIps, Bool.and_eq_false_iff]
      right
      exact ih ⟨p2, hmem, a, ha1, ha2⟩

theorem consolidateInto_requested (st : DeviceState) :
    (consolidateInto st).2.requested = st.requested := by
  unfold consolidateInto
  cases consolidate_wg_state st.requested <;> rfl

theorem consolidate_error_of_collision (rs : RequestedState)
    (hmesh : ∀ en, rs.exit_node = some en → isMeshnetPeer rs en.public_key = false)
    (hcol : ∃ en, rs.exit_node = some en ∧ ∃ cfg p a, rs.meshnet_config = some cfg
      ∧ p ∈ cfg.peers.getD [] ∧ a ∈ p.base.ip_addresses.getD []
      ∧ IpNet.host a ∈ en.allowed_ips.getD [.default4, .default6]) :
    consolidate_wg_state rs = .error (.controller .badAllowedIps) := by
  rcases hcol with ⟨en, hen, cfg, p, a, hcfg, hp, ha, hosta⟩
  have hvpn : vpnExitPeer rs = some
      { public_key := en.public_key
        allowed_ips := en.allowed_ips.getD [.default4, .default6] } := by
    simp [vpnExitPeer, hen, hmesh en hen]
  have hdis : disjointAllowedIps (desiredPeers rs) = false := by
    unfold desiredPeers
    rw [hvpn]
    refine disjointAllowedIps_append_false _ _ ?_
    refine ⟨{ public_key := p.base.public_key
              allowed_ips := (p.base.ip_addresses.getD []).map .host
                ++ (if (rs.exit_node.map fun en => en.public_key).getD
                      (p.base.public_key + 1) = p.base.public_key
                    then [.default4, .default6] else []) }, ?_, .host a, ?_, hosta⟩
    · simp only [meshDesiredPeers, hcfg]
      exact List.mem_map.2 ⟨p, hp, rfl⟩
    · exact List.mem_append_left _ (List.mem_map.2 ⟨a, ha, rfl⟩)
  unfold consolidate_wg_state
  rw [hdis]
  simp

theorem consolidateInto_error (st : DeviceState) (e : DevError)
    (h : consolidate_wg_state st.requested = .error e) :
    consolidateInto st = (.error e, st) := by
  unfold consolidateInto
  rw [h]

theorem connect_exit_node_eq (st : DeviceState) (node : ExitNode)
    (h : node.endpoint ≠ none ∨ isMeshnetPeer st.requested node.public_key = true) :
    connect_exit_node st node =
      consolidateInto { st with requested := { st.requested with exit_node := some node } } := by
  unfold connect_exit_node
  by_cases hm : isMeshnetPeer st.requested node.public_key = true
  · rw [if_pos hm]
  · rw [if_neg hm]
    rcases h with h | h
    · rw [if_neg h]
    · exact absurd h hm

/-- C1 (amended): connecting a VPN exit node whose allowed IPs collide with a
meshnet peer's IP fails with `BadAllowedIps` and issues no UAPI `set`
command, but `requested_state.exit_node` is not left unchanged: it has been
set to the rejected VPN node before the consolidation failed. -/
theorem connect_exit_node_rejects_collision (st : DeviceState) (node : ExitNode)
    (hmesh : isMeshnetPeer st.requested node.public_key = false)
    (hep : node.endpoint.isSome = true)
    (hcol : ∃ cfg p a, st.requested.meshnet_config = some cfg
      ∧ p ∈ cfg.peers.getD [] ∧ a ∈ p.base.ip_addresses.getD []
      ∧ IpNet.host a ∈ node.allowed_ips.getD [.default4, .default6]) :
    (connect_exit_node st node).1 = .error (.controller .badAllowedIps)
    ∧ (connect_exit_node st node).2.uapi_log = st.uapi_log
    ∧ (connect_exit_node st node).2.requested.exit_node = some node := by
  have hcons : consolidate_wg_state
      ({ st with requested := { st.requested with exit_node := some node } }
        : DeviceState).requested = .error (.controller .badAllowedIps) := by
    refine consolidate_error_of_collision _ ?_ ?_
    · intro en hen
      have hen2 : node = en := by simpa using hen
      exact hen2 ▸ hmesh
    · rcases hcol with ⟨cfg, p, a, hcfg, hp, ha, hosta⟩
      exact ⟨node, rfl, cfg, p, a, hcfg, hp, ha, hosta⟩
  have hne : node.endpoint ≠ none := by
    intro hn
    rw [hn] at hep
    simp at hep
  rw [connect_exit_node_eq st node (Or.inl hne)]
  rw [consolidateInto_error _ _ hcons]
  exact ⟨rfl, rfl, rfl⟩

/-- C1 counterexample to the claim as stated: at the
`test_duplicate_allowed_ips` scenario the call fails with `BadAllowedIps` and
issues no UAPI `set`, yet `requested_state.exit_node` does not keep its
previous value (it becomes the rejected VPN node). -/
theorem connect_exit_node_exit_changed_cex :
    (connect_exit_node twoPeerState stealingVpnNode).1
        = .error (.controller .badAllowedIps)
    ∧ (connect_exit_node twoPeerState stealingVpnNode).2.uapi_log
        = twoPeerState.uapi_log
    ∧ (connect_exit_node twoPeerState stealingVpnNode).2.requested.exit_node
        ≠ twoPeerState.requested.exit_node := by
  decide

theorem connect_exit_node_rejects_collision_witness :
    (connect_exit_node twoPeerState stealingVpnNode).1
        = .error (.controller .badAllowedIps)
    ∧ (connect_exit_node twoPeerState stealingVpnNode).2.uapi_log
        = twoPeerState.uapi_log
    ∧ (connect_exit_node twoPeerState stealingVpnNode).2.requested.exit_node
        = some stealingVpnNode :=
  connect_exit_node_rejects_collision twoPeerState stealingVpnNode (by decide) (by decide)
    ⟨twoPeerConfig, { base := { public_key := 1, ip_addresses := some [.v4 10] } }, .v4 10,
      rfl, by decide, by decide, by decide⟩

/-- C2: under the default `validate_keys` feature, a successful
`set_config(Some cfg)` implies `cfg.this.public_key` equals the public key of
the device's current private key, and a mismatch fails with `BadPublicKey`. -/
theorem set_config_key_agreement (publicOf : Nat → Nat) (st : DeviceState)
    (cfg : MeshConfig) (hval : st.validate_keys = true) :
    ((set_config publicOf st (some cfg)).1 = .ok () →
      cfg.this.public_key = publicOf st.requested.device_private_key)
    ∧ (cfg.this.public_key ≠ publicOf st.requested.device_private_key →
      (set_config publicOf st (some cfg)).1 = .error .badPublicKey) := by
  by_cases h : cfg.this.public_key = publicOf st.requested.device_private_key
  · exact ⟨fun _ => h, fun hne => absurd h hne⟩
  · have hres : set_config publicOf st (some cfg) = (.error .badPublicKey, st) := by
      simp only [set_config]
      rw [if_pos ⟨hval, h⟩]
    refine ⟨?_, fun _ => by rw [hres]⟩
    intro hok
    rw [hres] at hok
    exact absurd hok (by simp)

theorem set_config_key_agreement_witness :
    (set_config Nat.succ startedState (some configWithM)).1 = .error .badPublicKey :=
  (set_config_key_agreement Nat.succ startedState configWithM (by decide)).2 (by decide)

/-- C3: under the default `validate_keys` feature, while meshnet is enabled a
`set_private_key` with a key different from the current device key fails with
`BadPublicKey` leaving the whole runtime state (UAPI log included) untouched;
a successful call implies the key equals the current device key or meshnet
was disabled. -/
theorem set_private_key_meshnet_guard (st : DeviceState) (k : Nat)
    (hval : st.validate_keys = true) :
    (st.requested.meshnet_config.isSome = true →
      st.requested.device_private_key ≠ k →
      set_private_key st k = (.error .badPublicKey, st))
    ∧ ((set_private_key st k).1 = .ok () →
      k = st.requested.device_private_key ∨ st.requested.meshnet_config = none) := by
  constructor
  · intro hm hk
    unfold set_private_key
    rw [if_pos ⟨hval, hm, hk⟩]
  · intro hok
    by_cases hm : st.requested.meshnet_config.isSome = true
    · by_cases hk : st.requested.device_private_key = k
      · exact Or.inl hk.symm
      · exfalso
        have hres : set_private_key st k = (.error .badPublicKey, st) := by
          unfold set_private_key
          rw [if_pos ⟨hval, hm, hk⟩]
        rw [hres] at hok
        exact absurd hok (by simp)
    · exact Or.inr (Option.not_isSome_iff_eq_none.1 (by simpa using hm))

theorem set_private_key_meshnet_guard_witness :
    set_private_key (set_config id startedState (some configWithM)).2 9 =
      (.error .badPublicKey, (set_config id startedState (some configWithM)).2) :=
  (set_private_key_meshnet_guard (set_config id startedState (some configWithM)).2 9
    (by decide)).1 (by decide) (by decide)

/-- C4 (amended): re-issuing `set_config(Some cfg)` never changes
`requested_state.exit_node`, even when the current exit peer is absent from
`cfg`; only `set_config(None)` clears it, and only when the exit's public key
appears among the previous config's peers (so a VPN exit is preserved). -/
theorem set_config_exit_demote_only_none (publicOf : Nat → Nat) (st : DeviceState) :
    (∀ cfg : MeshConfig,
      (set_config publicOf st (some cfg)).2.requested.exit_node
        = st.requested.exit_node)
    ∧ (st.live_private_key.isSome = true →
      (set_config publicOf st none).2.requested.exit_node
        = if exitDemotes st.requested then none else st.requested.exit_node) := by
  constructor
  · intro cfg
    simp only [set_config]
    split
    · rfl
    · unfold set_config_body
      cases hlive : st.live_private_key with
      | none => simp [hlive]
      | some x =>
        simp only [hlive]
        rw [if_neg (by simp)]
        rw [consolidateInto_requested]
  · intro hlive2
    cases hlive : st.live_private_key with
    | none => rw [hlive] at hlive2; simp at hlive2
    | some x =>
      simp only [set_config, set_config_body, hlive]
      have hdem : demoteCond { st.requested with
          old_meshnet_config := st.requested.meshnet_config
          meshnet_config := none } = exitDemotes st.requested := rfl
      cases hd : exitDemotes st.requested with
      | true =>
        rw [if_pos (by simp [hdem, hd])]
        rw [consolidateInto_requested]
        simp
      | false =>
        rw [if_neg (by simp [hdem, hd])]
        rw [consolidateInto_requested]
        simp

theorem set_config_exit_demote_only_none_witness :
    (set_config id connectedToM none).2.requested.exit_node = none := by
  rw [(set_config_exit_demote_only_none id connectedToM).2 (by decide)]
  decide

/-- C4 counterexample to the claim as stated: after connecting to the meshnet
exit peer `M`, re-issuing `set_config` with a config that does not contain
`M` succeeds but leaves `requested_state.exit_node` pointing at `M` instead of
clearing it. -/
theorem set_config_exit_demote_cex :
    connectedToM.requested.exit_node = some { public_key := 7 }
    ∧ ((configWithoutM.peers.getD []).any fun p => p.base.public_key = 7) = false
    ∧ (set_config id connectedToM (some configWithoutM)).1 = .ok ()
    ∧ (set_config id connectedToM (some configWithoutM)).2.requested.exit_node
        = some { public_key := 7 } := by
  decide

/-- C9: for the S7 configuration (peers alpha with one IPv4 and one IPv6
address, beta with one IPv4, gamma with one IPv6), `collect_dns_records`
produces exactly those three mappings and they are served under the `nord`
zone. -/
theorem collect_dns_records_nord (a4 a6 b4 g6 : Nat) :
    upsert_dns_args { meshnet_config := some { peers := some [
        { base := { hostname := "alpha", ip_addresses := some [.v4 a4, .v6 a6] } },
        { base := { hostname := "beta", ip_addresses := some [.v4 b4] } },
        { base := { hostname := "gamma", ip_addresses := some [.v6 g6] } } ] } } =
      ("nord", [("alpha", [.v4 a4, .v6 a6]), ("beta", [.v4 b4]),
        ("gamma", [.v6 g6])]) := rfl

end Dev

/-! ### Codec claims -/

namespace Uapi

/-- C5: `Peer::is_connected` is true iff `time_since_last_handshake` is
present and strictly below 180 s + 334 ms; in particular it is true at
179.999 s, false at exactly 180.334 s, and false when the handshake time is
absent. -/
theorem is_connected_threshold :
    (∀ p : Peer, p.is_connected = true ↔
      ∃ d, p.time_since_last_handshake = some d
        ∧ d < 180 * 1000000000 + 334 * 1000000)
    ∧ Peer.is_connected { time_since_last_handshake := some 179999000000 } = true
    ∧ Peer.is_connected { time_since_last_handshake := some 180334000000 } = false
    ∧ Peer.is_connected { time_since_last_handshake := none } = false := by
  refine ⟨?_, by decide, by decide, by decide⟩
  intro p
  cases h : p.time_since_last_handshake with
  | none => simp [Peer.is_connected, h]
  | some d =>
    simp [Peer.is_connected, h, rejectAfterTime, rekeyTimeoutJitter]

/-- C7: the frame `listen_port=0\nerrno=0\n` parses to a response with errno
0 and a present interface whose `listen_port` is absent and whose other
fields are defaults. -/
theorem zero_listen_port_becomes_none (now : Nat) :
    response_from_str now [String.toList "listen_port=0", String.toList "errno=0"] =
      .ok { errno := 0, interface := some {} } := by
  have h1 : String.toList "listen_port=0" = kv "listen_port" (natToChars 0) := by decide
  have h2 : String.toList "errno=0" = kv "errno" (natToChars 0) := by decide
  show response_from_lines now _ {} none = _
  rw [h1, h2]
  rw [response_cons_kv _ "listen_port" _ _ _ _ (by decide)]
  simp only [topStep_listen_port 0 (by omega)]
  rw [response_cons_kv _ "errno" _ _ _ _ (by decide)]
  simp only [topStep_errno 0 (by omega)]
  rw [response_nil_none]
  rfl

/-- C8: the parser reads `rx_bytes` and `tx_bytes` as 64-bit unsigned
integers: any peer body carrying values below 2^64 — in particular values
exceeding 2^32 — parses successfully to the exact values. -/
theorem rx_tx_bytes_parse_u64 (now pk r t : Nat)
    (hr : r < 18446744073709551616) (ht : t < 18446744073709551616)
    (_hbig : 4294967296 < r ∨ 4294967296 < t) :
    response_from_str now
        [kv "public_key" (natToChars pk), kv "rx_bytes" (natToChars r),
         kv "tx_bytes" (natToChars t), kv "errno" (natToChars 0)] =
      .ok { errno := 0, interface := some { peers :=
        [(pk, { public_key := pk, rx_bytes := some r, tx_bytes := some t })] } } := by
  show response_from_lines now _ {} none = _
  rw [response_cons_kv _ "public_key" _ _ _ _ (by decide)]
  simp only [topStep_public_key]
  rw [response_cons_kv _ "rx_bytes" _ _ _ _ (by decide)]
  simp only [peerStep_rx_bytes now r hr]
  rw [response_cons_kv _ "tx_bytes" _ _ _ _ (by decide)]
  simp only [peerStep_tx_bytes now t ht]
  rw [response_cons_kv _ "errno" _ _ _ _ (by decide)]
  simp only [peerStep_errno now 0 (by omega)]
  rw [response_nil_none]
  rfl

theorem rx_tx_bytes_parse_u64_witness :
    response_from_str 0
        [kv "public_key" (natToChars 7), kv "rx_bytes" (natToChars 1000000000000),
         kv "tx_bytes" (natToChars 100), kv "errno" (natToChars 0)] =
      .ok { errno := 0, interface := some { peers :=
        [(7, { public_key := 7, rx_bytes := some 1000000000000,
               tx_bytes := some 100 })] } } :=
  rx_tx_bytes_parse_u64 0 7 1000000000000 100 (by decide) (by decide)
    (Or.inl (by decide))

/-- C10: a response frame with two peer sections carrying the same public key
parses successfully to an interface with exactly one entry for that key,
holding only the attributes of the later section (the `BTreeMap` insert
silently overwrites the earlier peer). -/
theorem duplicate_public_key_overwrites (now pk e1 r1 r2 : Nat)
    (hr1 : r1 < 18446744073709551616) (hr2 : r2 < 18446744073709551616) :
    response_from_str now
        [kv "public_key" (natToChars pk), kv "endpoint" (natToChars e1),
         kv "rx_bytes" (natToChars r1),
         kv "public_key" (natToChars pk), kv "rx_bytes" (natToChars r2),
         kv "errno" (natToChars 0)] =
      .ok { errno := 0, interface := some { peers :=
        [(pk, { public_key := pk, rx_bytes := some r2 })] } } := by
  show response_from_lines now _ {} none = _
  rw [response_cons_kv _ "public_key" _ _ _ _ (by decide)]
  simp only [topStep_public_key]
  rw [response_cons_kv _ "endpoint" _ _ _ _ (by decide)]
  simp only [peerStep_endpoint]
  rw [response_cons_kv _ "rx_bytes" _ _ _ _ (by decide)]
  simp only [peerStep_rx_bytes now r1 hr1]
  rw [response_cons_kv _ "public_key" _ _ _ _ (by decide)]
  simp only [peerStep_public_key]
  rw [response_cons_kv _ "rx_bytes" _ _ _ _ (by decide)]
  simp only [peerStep_rx_bytes now r2 hr2]
  rw [response_cons_kv _ "errno" _ _ _ _ (by decide)]
  simp only [peerStep_errno now 0 (by omega)]
  rw [response_nil_none]
  simp only [mkResp, insertPeer, finishPeer, btInsert]
  simp [calculate_time_since_last_handshake]

theorem duplicate_public_key_overwrites_witness :
    response_from_str 0
        [kv "public_key" (natToChars 7), kv "endpoint" (natToChars 3),
         kv "rx_bytes" (natToChars 1),
         kv "public_key" (natToChars 7), kv "rx_bytes" (natToChars 2),
         kv "errno" (natToChars 0)] =
      .ok { errno := 0, interface := some { peers :=
        [(7, { public_key := 7, rx_bytes := some 2 })] } } :=
  duplicate_public_key_overwrites 0 7 3 1 2 (by decide) (by decide)

/-- C6 counterexample to the claim as stated: a device whose peer carries
`rx_bytes` does not round-trip — the serializer drops the get-only transfer
counters, so parsing the serialized form yields a different device. -/
theorem uapi_round_trip_cex :
    response_from_str 0 (serialize_set_cmd
        { private_key := some 9
          peers := [(3, { public_key := 3, rx_bytes := some 5 })] })
      ≠ .ok { errno := 0, interface := some (zeroPortCanon
        { private_key := some 9
          peers := [(3, { public_key := 3, rx_bytes := some 5 })] }) } := by
  decide

theorem uapi_set_round_trip_witness :
    response_from_str 0 (serialize_set_cmd
        { private_key := some 9
          listen_port := some 0
          fwmark := 0
          peers := [
            (3, { public_key := 3, endpoint := some 44,
                  persistent_keepalive_interval := some 25, allowed_ips := [5, 6] }),
            (8, { public_key := 8 })] }) =
      .ok { errno := 0, interface := some (zeroPortCanon
        { private_key := some 9
          listen_port := some 0
          fwmark := 0
          peers := [
            (3, { public_key := 3, endpoint := some 44,
                  persistent_keepalive_interval := some 25, allowed_ips := [5, 6] }),
            (8, { public_key := 8 })] }) } :=
  uapi_set_round_trip 0 _
    ⟨by decide, by decide, by decide, by decide⟩
    (by unfold PeerSetOnly; decide)
    (Or.inl (by decide))

end Uapi

end Libtelio
